import Mathlib

/-!
Shallow embedding of the rezolus BPF aggregation core.

Sources embedded here:
* `src/common/bpf/helpers.h` (`array_add`, `array_incr`)
* `src/agent/bpf/cgroup.h` (`is_new_cgroup`, `update_cgroup_serial`,
  `zero_cgroup_counter`, `read_cgroup_info`, `struct cgroup_info`)
* `src/agent/samplers/cpu/linux/tlb_flush/mod.bpf.c` (`tlb_flush`)
* `src/agent/samplers/cpu/linux/throttled/mod.bpf.c`
  (`update_cgroup_metadata`, `cpu_cfs_unthrottle_enter`)
* `src/agent/samplers/syscall/linux/latency/mod.bpf.c`
  (`sys_enter` start-write and classification, `sys_exit` correlation)
* `src/samplers/tcp/linux/packet_latency/mod.bpf.c`
  (`handle_tcp_probe`, `handle_tcp_rcv_space_adjust`)
* `src/samplers/softirq/linux/time/mod.bpf.c` (classification in `softirq_exit`)
* the histogram bucket function `value_to_index`, whose defining header
  (`src/common/bpf/histogram.h`) is not part of the sources and is therefore
  modelled from the spec.

Machine integers are modelled as `Nat` with explicit `% 2 ^ 64` where u64
arithmetic can overflow.  A BPF ARRAY map is a total function `Nat → Nat`
together with its `max_entries` bound: `bpf_map_lookup_elem` succeeds exactly
on in-range keys.  The cgroup serial-number map is modelled as a partial map
`Nat → Option Nat` so that the "entry absent" case distinguished by the C
sources (`elem` NULL-checks) is expressible.  A BPF HASH map is an
association list with a capacity.  The metadata RINGBUF is a bounded list.
-/

namespace Rezolus

/-- 2^64, the modulus of u64 arithmetic. -/
def U64 : Nat := 2 ^ 64

/-- Wrapping u64 subtraction `a - b` (both operands reduced mod 2^64). -/
def u64sub (a b : Nat) : Nat := (a % U64 + U64 - b % U64) % U64

/-- `MAX_CPUS` from the samplers. -/
def MAX_CPUS : Nat := 1024

/-- `MAX_CGROUPS` from cgroup.h and the samplers. -/
def MAX_CGROUPS : Nat := 4096

/-- `MAX_PID` from the syscall latency sampler. -/
def MAX_PID : Nat := 4194304

/-- `MAX_SYSCALL_ID` from the syscall latency sampler. -/
def MAX_SYSCALL_ID : Nat := 1024

/-- `MAX_IRQS` from the softirq time sampler. -/
def MAX_IRQS : Nat := 4096

/-- `COUNTER_GROUP_WIDTH` in the syscall latency sampler. -/
def SYSCALL_GROUP_WIDTH : Nat := 16

/-- `COUNTER_GROUP_WIDTH` in the tlb_flush sampler. -/
def TLB_GROUP_WIDTH : Nat := 8

/-- `COUNTER_GROUP_WIDTH` in the softirq time sampler. -/
def SOFTIRQ_GROUP_WIDTH : Nat := 8

/-- `MAX_ENTRIES` of the `start` HASH map in the tcp packet latency sampler. -/
def TCP_MAX_ENTRIES : Nat := 10240

/-- `bpf_map_lookup_elem` on a BPF ARRAY map with `max` entries: in-range keys
always yield their (zero-initialized) element, out-of-range keys yield NULL. -/
def arrayLookup (m : Nat → Nat) (max idx : Nat) : Option Nat :=
  if idx < max then some (m idx) else none

/-- `bpf_map_update_elem` (`BPF_ANY`) on a BPF ARRAY map: overwrites in-range
keys, fails silently out of range. Stored values are u64. -/
def arrayUpdate (m : Nat → Nat) (max idx v : Nat) : Nat → Nat :=
  if idx < max then fun j => if j = idx then v % U64 else m j else m

/-- `array_add` from helpers.h: look the element up and, when the lookup
succeeds, atomically fetch-add `value` into it (u64 wrapping). -/
def array_add (m : Nat → Nat) (max idx value : Nat) : Nat → Nat :=
  match arrayLookup m max idx with
  | some elem => fun j => if j = idx then (elem + value) % U64 else m j
  | none => m

/-- `array_incr` from helpers.h. -/
def array_incr (m : Nat → Nat) (max idx : Nat) : Nat → Nat :=
  array_add m max idx 1

/-- `bpf_map_lookup_elem` on the cgroup serial-number map, modelled partially
so that the absent-entry case of the C NULL-checks is expressible. -/
def mapLookup (m : Nat → Option Nat) (idx : Nat) : Option Nat := m idx

/-- `bpf_map_update_elem` (`BPF_ANY`) on the serial-number map (an ARRAY map
with `max` entries). -/
def mapUpdate (m : Nat → Option Nat) (max idx v : Nat) : Nat → Option Nat :=
  if idx < max then fun j => if j = idx then some (v % U64) else m j else m

/-- `bpf_map_lookup_elem` on a BPF HASH map (association list). -/
def hashLookup (l : List (Nat × Nat)) (k : Nat) : Option Nat := l.lookup k

/-- `bpf_map_update_elem` with `BPF_NOEXIST` on a HASH map with capacity
`cap`: fails (leaving the map unchanged) if the key is already present or the
map is full; otherwise inserts. -/
def hashInsertNoExist (cap : Nat) (l : List (Nat × Nat)) (k v : Nat) :
    List (Nat × Nat) :=
  match l.lookup k with
  | some _ => l
  | none => if l.length < cap then (k, v % U64) :: l else l

/-- `bpf_map_delete_elem` on a HASH map. -/
def hashDelete (l : List (Nat × Nat)) (k : Nat) : List (Nat × Nat) :=
  l.filter (fun p => p.1 != k)

/-- `struct cgroup_info` from cgroup.h: the fixed-size metadata record pushed
through the ringbuf. Names are truncated kernel strings, modelled opaquely. -/
structure CgroupInfo where
  id : Nat
  level : Int
  name : String
  pname : String
  gpname : String
deriving DecidableEq

/-- `bpf_ringbuf_output` into the bounded metadata ringbuf: appends when there
is room, otherwise drops the record. The return value is ignored by every
caller in the sources. -/
def ringbuf_output (ring : List CgroupInfo) (cap : Nat) (info : CgroupInfo) :
    List CgroupInfo :=
  if ring.length < cap then ring ++ [info] else ring

/-- `is_new_cgroup` from cgroup.h, as a function of the serial-map lookup
result: `return elem && *elem != serial_nr` — a NULL (absent) lookup yields
false. -/
def is_new_cgroup (elem : Option Nat) (serial_nr : Nat) : Bool :=
  match elem with
  | some e => e != serial_nr
  | none => false

/-- `update_cgroup_serial` from cgroup.h: store the serial number for the id
(the serial map is an ARRAY map with `MAX_CGROUPS` entries). -/
def update_cgroup_serial (serials : Nat → Option Nat) (cgroup_id serial_nr : Nat) :
    Nat → Option Nat :=
  mapUpdate serials MAX_CGROUPS cgroup_id serial_nr

/-- `zero_cgroup_counter` from cgroup.h: write 0 into the per-cgroup slot. -/
def zero_cgroup_counter (m : Nat → Nat) (max cgroup_id : Nat) : Nat → Nat :=
  arrayUpdate m max cgroup_id 0

/-- The kernel-side inputs a hook reads from the current task: whether the
`sched_task_group` field exists on this kernel, whether the pointer is
non-NULL, the css id and serial number, and the cgroup hierarchy fields.
`pname`/`gpname` are `none` when the corresponding ancestor kernfs node is
NULL (an unreadable name leaves the zeroed buffer, i.e. the empty string). -/
structure TaskCtx where
  fieldExists : Bool
  hasTaskGroup : Bool
  cssId : Nat
  serialNr : Nat
  level : Int
  name : String
  pname : Option String
  gpname : Option String

/-- `read_cgroup_info` from cgroup.h: fails on a NULL task_group, an id of 0,
or an id at or above `MAX_CGROUPS`; otherwise fills the record (absent
ancestors leave the name buffers zeroed). -/
def read_cgroup_info (t : TaskCtx) : Option CgroupInfo :=
  if ¬ t.hasTaskGroup then none
  else if t.cssId = 0 ∨ MAX_CGROUPS ≤ t.cssId then none
  else some ⟨t.cssId, t.level, t.name, t.pname.getD "", t.gpname.getD ""⟩

/-! ### tlb_flush sampler (`src/agent/samplers/cpu/linux/tlb_flush/mod.bpf.c`) -/

/-- The maps of the tlb_flush sampler: the per-CPU `events` array, the cgroup
serial-number map, the five per-cgroup counters, and the metadata ringbuf
(with its capacity in records). -/
structure TlbState where
  events : Nat → Nat
  serials : Nat → Option Nat
  taskSwitch : Nat → Nat
  remoteShootdown : Nat → Nat
  localShootdown : Nat → Nat
  localMmShootdown : Nat → Nat
  remoteSendIpi : Nat → Nat
  ring : List CgroupInfo
  ringCap : Nat

/-- The new-cgroup branch of `tlb_flush`: zero the five per-cgroup counters,
push the metadata record into the ringbuf, store the serial number. -/
def tlb_cgroup_new (s : TlbState) (info : CgroupInfo) (serial_nr : Nat) : TlbState :=
  { s with
    taskSwitch := zero_cgroup_counter s.taskSwitch MAX_CGROUPS info.id
    remoteShootdown := zero_cgroup_counter s.remoteShootdown MAX_CGROUPS info.id
    localShootdown := zero_cgroup_counter s.localShootdown MAX_CGROUPS info.id
    localMmShootdown := zero_cgroup_counter s.localMmShootdown MAX_CGROUPS info.id
    remoteSendIpi := zero_cgroup_counter s.remoteSendIpi MAX_CGROUPS info.id
    ring := ringbuf_output s.ring s.ringCap info
    serials := update_cgroup_serial s.serials info.id serial_nr }

/-- The reason switch at the end of `tlb_flush`: increment the per-cgroup
counter selected by `reason` (reasons outside 0..4 fall through the switch). -/
def tlb_count (s : TlbState) (reason cgroup_id : Nat) : TlbState :=
  if reason = 0 then
    { s with taskSwitch := array_incr s.taskSwitch MAX_CGROUPS cgroup_id }
  else if reason = 1 then
    { s with remoteShootdown := array_incr s.remoteShootdown MAX_CGROUPS cgroup_id }
  else if reason = 2 then
    { s with localShootdown := array_incr s.localShootdown MAX_CGROUPS cgroup_id }
  else if reason = 3 then
    { s with localMmShootdown := array_incr s.localMmShootdown MAX_CGROUPS cgroup_id }
  else if reason = 4 then
    { s with remoteSendIpi := array_incr s.remoteSendIpi MAX_CGROUPS cgroup_id }
  else s

/-- The `tlb_flush` hook: bump the per-CPU event counter, read the cgroup
info, run the new-cgroup detection via `is_new_cgroup`, then attribute the
event to the per-cgroup counter for `reason`. -/
def tlb_flush (s : TlbState) (cpu reason : Nat) (t : TaskCtx) : TlbState :=
  let s1 := { s with
    events := array_incr s.events (MAX_CPUS * TLB_GROUP_WIDTH)
                (reason + TLB_GROUP_WIDTH * cpu) }
  if ¬ t.fieldExists then s1 else
  match read_cgroup_info t with
  | none => s1
  | some info =>
    let s2 :=
      if is_new_cgroup (mapLookup s1.serials info.id) t.serialNr then
        tlb_cgroup_new s1 info t.serialNr
      else s1
    tlb_count s2 reason info.id

/-! ### cpu throttled sampler
(`src/agent/samplers/cpu/linux/throttled/mod.bpf.c`) -/

/-- The maps of the throttled sampler. -/
structure ThrottledState where
  serials : Nat → Option Nat
  throttledTime : Nat → Nat
  throttledCount : Nat → Nat
  startTs : Nat → Nat
  ring : List CgroupInfo
  ringCap : Nat

/-- The kernel-side inputs read from a `struct cgroup *`: whether the pointer
is non-NULL, `BPF_CORE_READ(cgrp, id)`, `BPF_CORE_READ(cgrp, kn, id)` (the
serial number), the level, and the names. `pname`/`gpname` are `none` when
the corresponding kernfs parent pointer is NULL. -/
structure CgrpCtx where
  present : Bool
  id : Nat
  knId : Nat
  level : Int
  name : String
  pname : Option String
  gpname : Option String

/-- The metadata record `update_cgroup_metadata` fills: each ancestor name is
read only under its guard, an absent ancestor leaves the field zeroed. -/
def throttled_cginfo (c : CgrpCtx) (cgroup_id : Nat) : CgroupInfo :=
  ⟨cgroup_id, c.level, c.name,
   c.pname.getD "",
   match c.pname with
   | some _ => c.gpname.getD ""
   | none => ""⟩

/-- `update_cgroup_metadata`: guard on a NULL cgroup and the id range, then —
when the lookup is absent (`!elem`) **or** the stored serial differs — zero
the two per-cgroup counters, emit the record, and store the new serial. -/
def update_cgroup_metadata (s : ThrottledState) (c : CgrpCtx) (cgroup_id : Nat) :
    ThrottledState :=
  if ¬ c.present ∨ cgroup_id = 0 ∨ MAX_CGROUPS ≤ cgroup_id then s
  else
    let serial_nr := c.knId
    let isNew : Bool :=
      match mapLookup s.serials cgroup_id with
      | none => true
      | some e => e != serial_nr
    if isNew then
      { s with
        throttledTime := arrayUpdate s.throttledTime MAX_CGROUPS cgroup_id 0
        throttledCount := arrayUpdate s.throttledCount MAX_CGROUPS cgroup_id 0
        ring := ringbuf_output s.ring s.ringCap (throttled_cginfo c cgroup_id)
        serials := mapUpdate s.serials MAX_CGROUPS cgroup_id serial_nr }
    else s

/-- `cpu_cfs_unthrottle_enter`: look up the pending start; if absent or zero,
return. Compute the duration, clamped to zero when the start is after `now`;
add it to the throttled time only when positive; reset the start to zero. -/
def cpu_cfs_unthrottle_enter (s : ThrottledState) (c : CgrpCtx) (now : Nat) :
    ThrottledState :=
  if ¬ c.present then s
  else if c.id = 0 ∨ MAX_CGROUPS ≤ c.id then s
  else
    match arrayLookup s.startTs MAX_CGROUPS c.id with
    | none => s
    | some st =>
      if st = 0 then s
      else
        let duration := if st ≤ now % U64 then now % U64 - st else 0
        let s1 :=
          match arrayLookup s.throttledTime MAX_CGROUPS c.id with
          | some tt =>
            if 0 < duration then
              { s with throttledTime :=
                  arrayUpdate s.throttledTime MAX_CGROUPS c.id (tt + duration) }
            else s
          | none => s
        { s1 with startTs := arrayUpdate s1.startTs MAX_CGROUPS c.id 0 }

/-! ### syscall latency sampler
(`src/agent/samplers/syscall/linux/latency/mod.bpf.c`) -/

/-- The start-tracking write at the top of `sys_enter`:
`bpf_map_update_elem(&start, &tid, &ts, 0)` — flags 0 (`BPF_ANY`)
unconditionally overwrites the pending timestamp for `tid`. -/
def sys_enter_start (start : Nat → Nat) (tid ts : Nat) : Nat → Nat :=
  arrayUpdate start MAX_PID tid ts

/-- The correlation part of `sys_exit`: look up the start; treat a missing or
zero entry as a missed start; otherwise compute
`lat = bpf_ktime_get_ns() - *start_ts` in wrapping u64 arithmetic (there is
no clamp) and clear the entry by writing 0 through the pointer. Returns the
updated start map and the measured latency, if any. -/
def sys_exit_latency (start : Nat → Nat) (tid now : Nat) :
    (Nat → Nat) × Option Nat :=
  match arrayLookup start MAX_PID tid with
  | none => (start, none)
  | some st =>
    if st = 0 then (start, none)
    else ((fun j => if j = tid then 0 else start j), some (u64sub now st))

/-- The shared classification pattern (`sys_enter`/`sys_exit` in the syscall
sampler, `softirq_exit` in the softirq sampler): `group` starts at 0; when
the raw id is below the table bound, the table entry is looked up and adopted
only when it is non-zero and below the group width. -/
def lut_group (lut : Nat → Nat) (bound width raw_id : Nat) : Nat :=
  if raw_id < bound then
    match arrayLookup lut bound raw_id with
    | some co => if co ≠ 0 ∧ co < width then co else 0
    | none => 0
  else 0

/-- The classification of `sys_enter`/`sys_exit`: `syscall_lut` with
`MAX_SYSCALL_ID` entries folded into `COUNTER_GROUP_WIDTH = 16` groups. -/
def syscall_group (lut : Nat → Nat) (syscall_id : Nat) : Nat :=
  lut_group lut MAX_SYSCALL_ID SYSCALL_GROUP_WIDTH syscall_id

/-- The classification of `softirq_exit`: `irq_lut` with `MAX_IRQS` entries
folded into `COUNTER_GROUP_WIDTH = 8` groups. -/
def softirq_group (irq_lut : Nat → Nat) (irq_id : Nat) : Nat :=
  lut_group irq_lut MAX_IRQS SOFTIRQ_GROUP_WIDTH irq_id

/-- The serial-number check inlined in `sys_enter`
(`if (elem && *elem != serial_nr)`): the same condition as `is_new_cgroup`,
an absent lookup yields false. -/
def sys_enter_is_new (elem : Option Nat) (serial_nr : Nat) : Bool :=
  is_new_cgroup elem serial_nr

/-! ### tcp packet latency sampler
(`src/samplers/tcp/linux/packet_latency/mod.bpf.c`) -/

/-- `handle_tcp_probe`: read the sampling mask from the `lut` array (8
entries, index 0); drop when the mask is unavailable or selects the socket
out; drop pure-header packets; then record the receive timestamp with
`BPF_NOEXIST` — an already-pending start is **not** overwritten. -/
def handle_tcp_probe (lut : Nat → Nat) (start : List (Nat × Nat))
    (sock_ident len doff ts : Nat) : List (Nat × Nat) :=
  match arrayLookup lut 8 0 with
  | none => start
  | some mask =>
    if Nat.land sock_ident mask ≠ 0 then start
    else if len ≤ doff * 4 then start
    else hashInsertNoExist TCP_MAX_ENTRIES start sock_ident ts

/-- `handle_tcp_rcv_space_adjust`: same mask gate; look up the pending start;
when it exists and is strictly before `now`, the latency `now - *tsp` is
observed; the entry is deleted unconditionally. Returns the updated start map
and the observed latency, if any. -/
def handle_tcp_rcv_space_adjust (lut : Nat → Nat) (start : List (Nat × Nat))
    (sock_ident now : Nat) : List (Nat × Nat) × Option Nat :=
  match arrayLookup lut 8 0 with
  | none => (start, none)
  | some mask =>
    if Nat.land sock_ident mask ≠ 0 then (start, none)
    else
      match hashLookup start sock_ident with
      | none => (start, none)
      | some tsp =>
        (hashDelete start sock_ident,
         if tsp < now % U64 then some (u64sub now tsp) else none)

/-! ### histogram bucket function -/

/-- Modelled from the spec: `value_to_index` from
`src/common/bpf/histogram.h`, which is not among the sources (only its
callers are). Per the spec, values in `[0, 2^power)` map 1:1 to the first
`2^power` buckets; thereafter each doubling of the value range (the octave
`[2^h, 2^(h+1))`) is subdivided into exactly `2^power` buckets of equal
width. -/
def value_to_index (value power : Nat) : Nat :=
  if value < 2 ^ power then value
  else
    (Nat.log2 value - power + 1) * 2 ^ power
      + (value - 2 ^ Nat.log2 value) / 2 ^ (Nat.log2 value - power)

/-- Modelled from the spec: the total bucket count for a resolution `power`
over the full 64-bit value range — octaves `h = power .. 63` contribute
`2^power` buckets each on top of the `2^power` linear buckets, matching the
sources' bucket-count comment (grouping power 4, max value power 35 → 512
buckets). -/
def total_buckets (power : Nat) : Nat := (64 - power + 1) * 2 ^ power

/-! ### counter-bank executions (concurrency model) -/

/-- An execution of a set of concurrent `array_add` calls: each call is a
single atomic fetch-add (`__atomic_fetch_add` in helpers.h), so an
interleaving is a sequence of whole `array_add` steps; `ops` lists the
`(index, delta)` of each call in the order the interleaving serializes
them. -/
def run_adds (cap : Nat) (ops : List (Nat × Nat)) (arr : Nat → Nat) : Nat → Nat :=
  ops.foldl (fun a op => array_add a cap op.1 op.2) arr

/-- The counter slot layout used by every sampler:
`offset = COUNTER_GROUP_WIDTH * dimension; idx = offset + group`. -/
def counter_index (width dim group : Nat) : Nat := width * dim + group

/-! ## Helper lemmas -/

theorem arrayUpdate_self {m : Nat → Nat} {max idx v : Nat} (h : idx < max) :
    arrayUpdate m max idx v idx = v % U64 := by
  simp [arrayUpdate, h]

theorem arrayUpdate_ne {m : Nat → Nat} {max idx v j : Nat} (h : j ≠ idx) :
    arrayUpdate m max idx v j = m j := by
  unfold arrayUpdate
  split
  · simp [h]
  · rfl

theorem array_add_self {m : Nat → Nat} {max idx v : Nat} (h : idx < max) :
    array_add m max idx v idx = (m idx + v) % U64 := by
  simp [array_add, arrayLookup, h]

theorem array_add_ne {m : Nat → Nat} {max idx v j : Nat} (h : j ≠ idx) :
    array_add m max idx v j = m j := by
  unfold array_add arrayLookup
  split
  · simp [h]
  · rfl

theorem array_add_out {m : Nat → Nat} {max idx v : Nat} (h : ¬ idx < max) :
    array_add m max idx v = m := by
  simp [array_add, arrayLookup, h]

theorem mapUpdate_self {m : Nat → Option Nat} {max idx v : Nat} (h : idx < max) :
    mapUpdate m max idx v idx = some (v % U64) := by
  simp [mapUpdate, h]

theorem ringbuf_output_room {ring : List CgroupInfo} {cap : Nat}
    {info : CgroupInfo} (h : ring.length < cap) :
    ringbuf_output ring cap info = ring ++ [info] := by
  simp [ringbuf_output, h]

theorem ringbuf_output_full {ring : List CgroupInfo} {cap : Nat}
    {info : CgroupInfo} (h : cap ≤ ring.length) :
    ringbuf_output ring cap info = ring := by
  simp [ringbuf_output, Nat.not_lt.2 h]

theorem lut_group_lt {lut : Nat → Nat} {bound width raw : Nat} (hw : 0 < width) :
    lut_group lut bound width raw < width := by
  unfold lut_group arrayLookup
  split
  · next hb =>
    dsimp only
    split
    · next h => exact h.2
    · exact hw
  · exact hw

theorem lut_group_oob {lut : Nat → Nat} {bound width raw : Nat}
    (h : bound ≤ raw) : lut_group lut bound width raw = 0 := by
  simp [lut_group, Nat.not_lt.2 h]

theorem lut_group_zero_entry {lut : Nat → Nat} {bound width raw : Nat}
    (h : lut raw = 0) : lut_group lut bound width raw = 0 := by
  unfold lut_group arrayLookup
  split
  · next hb => simp [hb, h]
  · rfl

theorem lut_group_big_entry {lut : Nat → Nat} {bound width raw : Nat}
    (h : width ≤ lut raw) : lut_group lut bound width raw = 0 := by
  unfold lut_group arrayLookup
  split
  · next hb =>
    dsimp only
    split
    · next hco => exact absurd hco.2 (Nat.not_lt.2 h)
    · rfl
  · rfl

theorem read_cgroup_info_some (t : TaskCtx) (hht : t.hasTaskGroup = true)
    (hid0 : t.cssId ≠ 0) (hid : t.cssId < MAX_CGROUPS) :
    read_cgroup_info t
      = some ⟨t.cssId, t.level, t.name, t.pname.getD "", t.gpname.getD ""⟩ := by
  unfold read_cgroup_info
  rw [if_neg (by simp [hht]), if_neg (by push_neg; exact ⟨hid0, hid⟩)]

theorem tlb_flush_new_r0 (s : TlbState) (cpu id v : Nat) (lvl : Int)
    (nm : String) (pn gn : Option String) (hid0 : id ≠ 0)
    (hid : id < MAX_CGROUPS) (hnew : is_new_cgroup (s.serials id) v = true) :
    tlb_flush s cpu 0 ⟨true, true, id, v, lvl, nm, pn, gn⟩ =
      { events := array_incr s.events (MAX_CPUS * TLB_GROUP_WIDTH)
          (0 + TLB_GROUP_WIDTH * cpu)
        serials := update_cgroup_serial s.serials id v
        taskSwitch := array_incr (zero_cgroup_counter s.taskSwitch MAX_CGROUPS id)
          MAX_CGROUPS id
        remoteShootdown := zero_cgroup_counter s.remoteShootdown MAX_CGROUPS id
        localShootdown := zero_cgroup_counter s.localShootdown MAX_CGROUPS id
        localMmShootdown := zero_cgroup_counter s.localMmShootdown MAX_CGROUPS id
        remoteSendIpi := zero_cgroup_counter s.remoteSendIpi MAX_CGROUPS id
        ring := ringbuf_output s.ring s.ringCap ⟨id, lvl, nm, pn.getD "", gn.getD ""⟩
        ringCap := s.ringCap } := by
  have hr := read_cgroup_info_some ⟨true, true, id, v, lvl, nm, pn, gn⟩ rfl hid0 hid
  unfold tlb_flush
  rw [if_neg (by simp), hr]
  dsimp only [mapLookup]
  rw [if_pos hnew]
  rfl

theorem tlb_flush_old_r0 (s : TlbState) (cpu id v : Nat) (lvl : Int)
    (nm : String) (pn gn : Option String) (hid0 : id ≠ 0)
    (hid : id < MAX_CGROUPS) (hnew : is_new_cgroup (s.serials id) v = false) :
    tlb_flush s cpu 0 ⟨true, true, id, v, lvl, nm, pn, gn⟩ =
      { s with
        events := array_incr s.events (MAX_CPUS * TLB_GROUP_WIDTH)
          (0 + TLB_GROUP_WIDTH * cpu)
        taskSwitch := array_incr s.taskSwitch MAX_CGROUPS id } := by
  have hr := read_cgroup_info_some ⟨true, true, id, v, lvl, nm, pn, gn⟩ rfl hid0 hid
  unfold tlb_flush
  rw [if_neg (by simp), hr]
  dsimp only [mapLookup]
  rw [if_neg (by simp [hnew])]
  rfl

theorem tlbNew_ring (s : TlbState) (cpu id v : Nat) (lvl : Int) (nm : String)
    (pn gn : Option String) (hid0 : id ≠ 0) (hid : id < MAX_CGROUPS)
    (hnew : is_new_cgroup (s.serials id) v = true)
    (hroom : s.ring.length < s.ringCap) :
    (tlb_flush s cpu 0 ⟨true, true, id, v, lvl, nm, pn, gn⟩).ring
      = s.ring ++ [⟨id, lvl, nm, pn.getD "", gn.getD ""⟩] := by
  rw [tlb_flush_new_r0 s cpu id v lvl nm pn gn hid0 hid hnew]
  exact ringbuf_output_room hroom

theorem tlbNew_ring_full (s : TlbState) (cpu id v : Nat) (lvl : Int)
    (nm : String) (pn gn : Option String) (hid0 : id ≠ 0)
    (hid : id < MAX_CGROUPS) (hnew : is_new_cgroup (s.serials id) v = true)
    (hfull : s.ringCap ≤ s.ring.length) :
    (tlb_flush s cpu 0 ⟨true, true, id, v, lvl, nm, pn, gn⟩).ring = s.ring := by
  rw [tlb_flush_new_r0 s cpu id v lvl nm pn gn hid0 hid hnew]
  exact ringbuf_output_full hfull

theorem tlbNew_serials (s : TlbState) (cpu id v : Nat) (lvl : Int) (nm : String)
    (pn gn : Option String) (hid0 : id ≠ 0) (hid : id < MAX_CGROUPS)
    (hnew : is_new_cgroup (s.serials id) v = true) :
    (tlb_flush s cpu 0 ⟨true, true, id, v, lvl, nm, pn, gn⟩).serials id
      = some (v % U64) := by
  rw [tlb_flush_new_r0 s cpu id v lvl nm pn gn hid0 hid hnew]
  exact mapUpdate_self hid

theorem tlbNew_taskSwitch (s : TlbState) (cpu id v : Nat) (lvl : Int)
    (nm : String) (pn gn : Option String) (hid0 : id ≠ 0)
    (hid : id < MAX_CGROUPS) (hnew : is_new_cgroup (s.serials id) v = true) :
    (tlb_flush s cpu 0 ⟨true, true, id, v, lvl, nm, pn, gn⟩).taskSwitch id = 1 := by
  rw [tlb_flush_new_r0 s cpu id v lvl nm pn gn hid0 hid hnew]
  show array_incr (zero_cgroup_counter s.taskSwitch MAX_CGROUPS id)
      MAX_CGROUPS id id = 1
  unfold array_incr
  rw [array_add_self hid]
  unfold zero_cgroup_counter
  rw [arrayUpdate_self hid]
  decide

theorem tlbNew_remoteShootdown (s : TlbState) (cpu id v : Nat) (lvl : Int)
    (nm : String) (pn gn : Option String) (hid0 : id ≠ 0)
    (hid : id < MAX_CGROUPS) (hnew : is_new_cgroup (s.serials id) v = true) :
    (tlb_flush s cpu 0 ⟨true, true, id, v, lvl, nm, pn, gn⟩).remoteShootdown id
      = 0 := by
  rw [tlb_flush_new_r0 s cpu id v lvl nm pn gn hid0 hid hnew]
  show zero_cgroup_counter s.remoteShootdown MAX_CGROUPS id id = 0
  unfold zero_cgroup_counter
  rw [arrayUpdate_self hid]
  decide

theorem tlbNew_ringCap (s : TlbState) (cpu id v : Nat) (lvl : Int) (nm : String)
    (pn gn : Option String) (hid0 : id ≠ 0) (hid : id < MAX_CGROUPS)
    (hnew : is_new_cgroup (s.serials id) v = true) :
    (tlb_flush s cpu 0 ⟨true, true, id, v, lvl, nm, pn, gn⟩).ringCap
      = s.ringCap := by
  rw [tlb_flush_new_r0 s cpu id v lvl nm pn gn hid0 hid hnew]

theorem tlbOld_ring (s : TlbState) (cpu id v : Nat) (lvl : Int) (nm : String)
    (pn gn : Option String) (hid0 : id ≠ 0) (hid : id < MAX_CGROUPS)
    (hnew : is_new_cgroup (s.serials id) v = false) :
    (tlb_flush s cpu 0 ⟨true, true, id, v, lvl, nm, pn, gn⟩).ring = s.ring := by
  rw [tlb_flush_old_r0 s cpu id v lvl nm pn gn hid0 hid hnew]

theorem tlbOld_serials (s : TlbState) (cpu id v : Nat) (lvl : Int) (nm : String)
    (pn gn : Option String) (hid0 : id ≠ 0) (hid : id < MAX_CGROUPS)
    (hnew : is_new_cgroup (s.serials id) v = false) :
    (tlb_flush s cpu 0 ⟨true, true, id, v, lvl, nm, pn, gn⟩).serials
      = s.serials := by
  rw [tlb_flush_old_r0 s cpu id v lvl nm pn gn hid0 hid hnew]

theorem tlbOld_taskSwitch (s : TlbState) (cpu id v : Nat) (lvl : Int)
    (nm : String) (pn gn : Option String) (hid0 : id ≠ 0)
    (hid : id < MAX_CGROUPS) (hnew : is_new_cgroup (s.serials id) v = false) :
    (tlb_flush s cpu 0 ⟨true, true, id, v, lvl, nm, pn, gn⟩).taskSwitch id
      = (s.taskSwitch id + 1) % U64 := by
  rw [tlb_flush_old_r0 s cpu id v lvl nm pn gn hid0 hid hnew]
  exact array_add_self hid

theorem tlbOld_ringCap (s : TlbState) (cpu id v : Nat) (lvl : Int) (nm : String)
    (pn gn : Option String) (hid0 : id ≠ 0) (hid : id < MAX_CGROUPS)
    (hnew : is_new_cgroup (s.serials id) v = false) :
    (tlb_flush s cpu 0 ⟨true, true, id, v, lvl, nm, pn, gn⟩).ringCap
      = s.ringCap := by
  rw [tlb_flush_old_r0 s cpu id v lvl nm pn gn hid0 hid hnew]

/-! ## Claim theorems -/

/-- **C5** (counterexample). The Scenario A values claimed by the spec fail on
the bucket function: with power 3 the value 15 maps to bucket 15, not 8, and
16 maps to bucket 16, not 9 (the second octave `[8, 16)` is subdivided into
eight width-1 sub-buckets 8..15, as the spec's own `index_of` definition
requires). -/
theorem C5_scenario_counterexample :
    value_to_index 15 3 ≠ 8 ∧ value_to_index 16 3 ≠ 9 := by
  constructor
  · simp [value_to_index, Nat.log2]
  · simp [value_to_index, Nat.log2]

/-- **C5** (amended). With histogram resolution power = 3 the value-to-bucket
function maps 0 to bucket 0, 7 to bucket 7, 8 to bucket 8, 15 to bucket 15,
and 16 to bucket 16: the linear range covers `[0, 8)`, and each octave is
subdivided into eight equal sub-buckets, so within `[8, 16)` the buckets are
8..15 and bucket 16 starts the octave `[16, 32)`. -/
theorem C5_power3_buckets :
    value_to_index 0 3 = 0 ∧ value_to_index 7 3 = 7 ∧ value_to_index 8 3 = 8 ∧
      value_to_index 15 3 = 15 ∧ value_to_index 16 3 = 16 := by
  refine ⟨by decide, by decide, ?_, ?_, ?_⟩
  · simp [value_to_index, Nat.log2]
  · simp [value_to_index, Nat.log2]
  · simp [value_to_index, Nat.log2]

/-- **C6**. Classification is a total function into the valid group range:
for every raw id the computed group is in `[0, width)`; ids at or above the
table bound, unpopulated entries (0), and populated entries at or above the
group width all classify to group 0 ("other"). This holds for the shared
pattern `lut_group` and hence for both instances (`syscall_group` with width
16, `softirq_group` with width 8). -/
theorem C6_classification_total (lut lut2 : Nat → Nat) (bound width raw : Nat)
    (hw : 0 < width) :
    lut_group lut bound width raw < width ∧
      (bound ≤ raw → lut_group lut bound width raw = 0) ∧
      (lut raw = 0 → lut_group lut bound width raw = 0) ∧
      (width ≤ lut raw → lut_group lut bound width raw = 0) ∧
      syscall_group lut2 raw < SYSCALL_GROUP_WIDTH ∧
      softirq_group lut2 raw < SOFTIRQ_GROUP_WIDTH :=
  ⟨lut_group_lt hw, fun h => lut_group_oob h, fun h => lut_group_zero_entry h,
    fun h => lut_group_big_entry h,
    lut_group_lt (by decide), lut_group_lt (by decide)⟩

/-- **C6** (witness): the unpopulated entry for raw id 500 (Scenario E) and
a populated entry of 20 ≥ 16 both classify to 0, and the range bound holds. -/
theorem C6_classification_total_witness :
    lut_group (fun _ => 20) 1024 16 500 < 16 ∧
      lut_group (fun _ => 20) 1024 16 500 = 0 ∧
      lut_group (fun _ => 0) 1024 16 500 = 0 :=
  ⟨(C6_classification_total (fun _ => 20) (fun _ => 20) 1024 16 500 (by decide)).1,
    (C6_classification_total (fun _ => 20) (fun _ => 20) 1024 16 500
      (by decide)).2.2.2.1 (by decide),
    (C6_classification_total (fun _ => 0) (fun _ => 0) 1024 16 500
      (by decide)).2.2.1 (by decide)⟩

/-- **C7**. `array_add` adds the delta to the slot at
`dimension * group_width + group` if and only if that index is below the
bank's capacity; for an out-of-range index no slot changes and no error is
surfaced (the function returns the bank unchanged). -/
theorem C7_increment_bounds (arr : Nat → Nat) (cap width dim group δ j : Nat) :
    array_add arr cap (counter_index width dim group) δ j =
      if counter_index width dim group < cap ∧ j = counter_index width dim group
      then (arr (counter_index width dim group) + δ) % U64
      else arr j := by
  by_cases hc : counter_index width dim group < cap
  · by_cases hj : j = counter_index width dim group
    · rw [if_pos ⟨hc, hj⟩, hj, array_add_self hc]
    · rw [if_neg (fun h => hj h.2), array_add_ne hj]
  · rw [if_neg (fun h => hc h.1), array_add_out hc]

/-- **C1** (counterexample). In the tcp packet-latency tracker, `begin` is
not last-write-wins: `handle_tcp_probe` records the timestamp with
`BPF_NOEXIST`, so `begin(42, 1000); begin(42, 1500); end(42, 2000)` keeps the
first start and yields duration 1000, not 500. -/
theorem C1_tcp_keeps_first_start :
    (handle_tcp_rcv_space_adjust (fun _ => 0)
        (handle_tcp_probe (fun _ => 0)
          (handle_tcp_probe (fun _ => 0) [] 42 100 5 1000) 42 100 5 1500)
        42 2000).2 = some 1000 ∧ (1000 : Nat) ≠ 500 := by
  exact ⟨by decide, by decide⟩

/-- **C1** (amended). The syscall-latency tracker's `begin` (the `BPF_ANY`
start write in `sys_enter`) is last-write-wins: after
`begin(tid, ts1); begin(tid, ts2)` the pending timestamp is `ts2`, and
`end(tid, ts3)` yields `ts3 - ts2`. The tcp packet-latency tracker's `begin`
(`handle_tcp_probe`, `BPF_NOEXIST`) instead keeps the earlier start: after
two begins the pending timestamp is still `ts1`. -/
theorem C1_begin_write_semantics (start : Nat → Nat) (l : List (Nat × Nat))
    (lut : Nat → Nat) (tid ts1 ts2 ts3 sk len doff : Nat)
    (htid : tid < MAX_PID) (h2 : ts2 ≠ 0) (h2u : ts2 < U64)
    (h23 : ts2 ≤ ts3) (h3u : ts3 < U64) (h1u : ts1 < U64)
    (hmask : lut 0 = 0) (hpkt : doff * 4 < len)
    (hl : hashLookup l sk = none) (hcap : l.length < TCP_MAX_ENTRIES) :
    sys_enter_start (sys_enter_start start tid ts1) tid ts2 tid = ts2 ∧
      (sys_exit_latency (sys_enter_start (sys_enter_start start tid ts1) tid ts2)
          tid ts3).2 = some (ts3 - ts2) ∧
      hashLookup (handle_tcp_probe lut (handle_tcp_probe lut l sk len doff ts1)
          sk len doff ts2) sk = some ts1 := by
  have hpend : sys_enter_start (sys_enter_start start tid ts1) tid ts2 tid = ts2 := by
    rw [sys_enter_start, arrayUpdate_self htid, Nat.mod_eq_of_lt h2u]
  refine ⟨hpend, ?_, ?_⟩
  · unfold sys_exit_latency arrayLookup
    rw [if_pos htid, hpend]
    simp only [h2, if_false, if_neg h2]
    have : u64sub ts3 ts2 = ts3 - ts2 := by
      unfold u64sub
      rw [Nat.mod_eq_of_lt h3u, Nat.mod_eq_of_lt h2u]
      have h1 : ts3 + U64 - ts2 = ts3 - ts2 + U64 := by omega
      rw [h1, Nat.add_mod_right, Nat.mod_eq_of_lt (by omega)]
    rw [this]
  · have hland : Nat.land sk 0 = 0 := by simp [Nat.land]
    have hfirst : handle_tcp_probe lut l sk len doff ts1 = (sk, ts1 % U64) :: l := by
      unfold handle_tcp_probe arrayLookup
      rw [if_pos (by decide : (0:Nat) < 8), hmask]
      dsimp only
      rw [if_neg (by simp [hland]), if_neg (Nat.not_le.2 hpkt)]
      unfold hashInsertNoExist
      rw [show List.lookup sk l = none from hl]
      dsimp only
      rw [if_pos hcap]
    rw [hfirst]
    have hsecond : handle_tcp_probe lut ((sk, ts1 % U64) :: l) sk len doff ts2
        = (sk, ts1 % U64) :: l := by
      unfold handle_tcp_probe arrayLookup
      rw [if_pos (by decide : (0:Nat) < 8), hmask]
      dsimp only
      rw [if_neg (by simp [hland]), if_neg (Nat.not_le.2 hpkt)]
      unfold hashInsertNoExist
      simp [List.lookup]
    rw [hsecond]
    simp [hashLookup, List.lookup, Nat.mod_eq_of_lt h1u]

/-- **C1** (witness): the concrete Scenario C on both trackers — the syscall
tracker yields 500 from the second start; the tcp tracker still holds 1000. -/
theorem C1_begin_write_semantics_witness :
    sys_enter_start (sys_enter_start (fun _ => 0) 42 1000) 42 1500 42 = 1500 ∧
      (sys_exit_latency (sys_enter_start (sys_enter_start (fun _ => 0) 42 1000)
          42 1500) 42 2000).2 = some 500 ∧
      hashLookup (handle_tcp_probe (fun _ => 0)
          (handle_tcp_probe (fun _ => 0) [] 42 100 5 1000) 42 100 5 1500) 42
        = some 1000 := by
  have h := C1_begin_write_semantics (fun _ => 0) [] (fun _ => 0) 42 1000 1500
    2000 42 100 5 (by decide) (by decide) (by decide) (by decide) (by decide)
    (by decide) (by decide) (by decide) (by decide) (by decide)
  exact ⟨h.1, h.2.1, h.2.2⟩

/-- **C2** (counterexample). The syscall-latency `sys_exit` does not clamp:
with a pending start of 2000 and an exit at 1000, the computed duration is
the wrapped unsigned difference `2^64 - 1000`, not zero. -/
theorem C2_sys_exit_wraps :
    (sys_exit_latency (fun j => if j = 5 then 2000 else 0) 5 1000).2
        = some (U64 - 1000) ∧ U64 - 1000 ≠ 0 := by
  exact ⟨by decide, by decide⟩

/-- **C2** (amended). In the cpu-throttled sampler, `cpu_cfs_unthrottle_enter`
clamps a clock anomaly (pending start after the end timestamp) to a zero
duration — the throttled-time counter is unchanged — and still clears the
pending entry. In the syscall-latency `sys_exit` the pending entry is also
cleared, but the recorded duration is the wrapped unsigned difference
`ts - pending_ts mod 2^64`, not a clamped zero. -/
theorem C2_clamp_semantics (s : ThrottledState) (c : CgrpCtx) (now : Nat)
    (start : Nat → Nat) (tid tnow : Nat)
    (hpres : c.present = true) (hid0 : c.id ≠ 0) (hid : c.id < MAX_CGROUPS)
    (hst0 : s.startTs c.id ≠ 0) (hanom : now < s.startTs c.id) (hnow : now < U64)
    (htid : tid < MAX_PID) (hstart0 : start tid ≠ 0) :
    (cpu_cfs_unthrottle_enter s c now).throttledTime = s.throttledTime ∧
      (cpu_cfs_unthrottle_enter s c now).startTs c.id = 0 ∧
      (sys_exit_latency start tid tnow).1 tid = 0 ∧
      (sys_exit_latency start tid tnow).2 = some (u64sub tnow (start tid)) := by
  have hres : cpu_cfs_unthrottle_enter s c now
      = { s with startTs := arrayUpdate s.startTs MAX_CGROUPS c.id 0 } := by
    unfold cpu_cfs_unthrottle_enter arrayLookup
    rw [if_neg (by simp [hpres]), if_neg (by push_neg; exact ⟨hid0, hid⟩)]
    rw [if_pos hid]
    dsimp only
    rw [if_neg hst0]
    have hdur : (if s.startTs c.id ≤ now % U64 then now % U64 - s.startTs c.id
        else 0) = 0 := by
      rw [Nat.mod_eq_of_lt hnow, if_neg (Nat.not_le.2 hanom)]
    rw [if_pos hid]
    dsimp only
    rw [hdur]
    simp
  refine ⟨by rw [hres], by rw [hres]; exact arrayUpdate_self hid, ?_, ?_⟩
  · unfold sys_exit_latency arrayLookup
    rw [if_pos htid]
    dsimp only
    rw [if_neg hstart0]
    simp
  · unfold sys_exit_latency arrayLookup
    rw [if_pos htid]
    dsimp only
    rw [if_neg hstart0]

/-- **C2** (witness): a concrete anomaly — pending start 2000, end at 1000 —
leaves the throttled time untouched, clears the entry, and on the syscall
side produces the wrapped value `2^64 - 1000` while clearing the entry. -/
theorem C2_clamp_semantics_witness :
    (cpu_cfs_unthrottle_enter
        ⟨fun _ => some 0, fun _ => 0, fun _ => 0,
          fun j => if j = 7 then 2000 else 0, [], 10⟩
        ⟨true, 7, 3, 0, "a", none, none⟩ 1000).throttledTime = (fun _ => 0) ∧
      (cpu_cfs_unthrottle_enter
        ⟨fun _ => some 0, fun _ => 0, fun _ => 0,
          fun j => if j = 7 then 2000 else 0, [], 10⟩
        ⟨true, 7, 3, 0, "a", none, none⟩ 1000).startTs 7 = 0 ∧
      (sys_exit_latency (fun j => if j = 5 then 2000 else 0) 5 1000).1 5 = 0 ∧
      (sys_exit_latency (fun j => if j = 5 then 2000 else 0) 5 1000).2
        = some (u64sub 1000 2000) := by
  have h := C2_clamp_semantics
    ⟨fun _ => some 0, fun _ => 0, fun _ => 0,
      fun j => if j = 7 then 2000 else 0, [], 10⟩
    ⟨true, 7, 3, 0, "a", none, none⟩ 1000
    (fun j => if j = 5 then 2000 else 0) 5 1000
    (by decide) (by decide) (by decide) (by decide) (by decide) (by decide)
    (by decide) (by decide)
  exact ⟨h.1, h.2.1, h.2.2.1, h.2.2.2⟩

/-- **C3** (counterexample). In the `is_new_cgroup`-based attributor, an id
whose cached version tag cannot be looked up is **not** treated as changed:
with no cached entry for id 7, a `tlb_flush` event for id 7 with serial 3
emits no metadata record and stores no tag (the claim requires a record and
a stored tag). -/
theorem C3_absent_entry_not_new :
    (tlb_flush ⟨fun _ => 0, fun _ => none, fun _ => 0, fun _ => 0, fun _ => 0,
        fun _ => 0, fun _ => 0, [], 1310⟩ 0 0
      ⟨true, true, 7, 3, 0, "a", some "b", some "c"⟩).ring = [] ∧
    (tlb_flush ⟨fun _ => 0, fun _ => none, fun _ => 0, fun _ => 0, fun _ => 0,
        fun _ => 0, fun _ => 0, [], 1310⟩ 0 0
      ⟨true, true, 7, 3, 0, "a", some "b", some "c"⟩).serials 7 = none := by
  exact ⟨rfl, rfl⟩

/-- **C3** (amended). The two absent-entry behaviors differ by call site: the
throttled sampler's `update_cgroup_metadata` (`if (!elem || *elem != serial_nr)`)
treats an absent cached tag like a changed one — counters zeroed, record
emitted, new tag stored — while `is_new_cgroup` in cgroup.h
(`return elem && *elem != serial_nr`, also the inline check in the syscall
sampler's `sys_enter`) treats an absent entry as *not* new, so nothing is
zeroed, emitted, or stored. -/
theorem C3_absent_entry_semantics (s : ThrottledState) (c : CgrpCtx)
    (id w : Nat) (hpres : c.present = true) (hid0 : id ≠ 0)
    (hid : id < MAX_CGROUPS) (habs : s.serials id = none)
    (hroom : s.ring.length < s.ringCap) (hk : c.knId < U64) :
    (update_cgroup_metadata s c id).ring = s.ring ++ [throttled_cginfo c id] ∧
      (update_cgroup_metadata s c id).serials id = some c.knId ∧
      (update_cgroup_metadata s c id).throttledTime id = 0 ∧
      (update_cgroup_metadata s c id).throttledCount id = 0 ∧
      is_new_cgroup none w = false := by
  have hres : update_cgroup_metadata s c id =
      { s with
        throttledTime := arrayUpdate s.throttledTime MAX_CGROUPS id 0
        throttledCount := arrayUpdate s.throttledCount MAX_CGROUPS id 0
        ring := ringbuf_output s.ring s.ringCap (throttled_cginfo c id)
        serials := mapUpdate s.serials MAX_CGROUPS id c.knId } := by
    unfold update_cgroup_metadata
    rw [if_neg (by push_neg; exact ⟨by simp [hpres], hid0, hid⟩)]
    dsimp only [mapLookup]
    rw [habs]
    rfl
  refine ⟨?_, ?_, ?_, ?_, rfl⟩
  · rw [hres]
    exact ringbuf_output_room hroom
  · rw [hres]
    show mapUpdate s.serials MAX_CGROUPS id c.knId id = some c.knId
    rw [mapUpdate_self hid, Nat.mod_eq_of_lt hk]
  · rw [hres]
    show arrayUpdate s.throttledTime MAX_CGROUPS id 0 id = 0
    rw [arrayUpdate_self hid]
    decide
  · rw [hres]
    show arrayUpdate s.throttledCount MAX_CGROUPS id 0 id = 0
    rw [arrayUpdate_self hid]
    decide

/-- **C3** (witness): a throttled-sampler state with no cached tag for id 7;
attributing id 7 with serial 3 emits the record, stores the tag, zeroes the
two counters. -/
theorem C3_absent_entry_semantics_witness :
    (update_cgroup_metadata
        ⟨fun _ => none, fun j => if j = 7 then 5 else 0,
          fun j => if j = 7 then 9 else 0, fun _ => 0, [], 10⟩
        ⟨true, 7, 3, 0, "a", some "b", none⟩ 7).ring
      = [⟨7, 0, "a", "b", ""⟩] ∧
      (update_cgroup_metadata
        ⟨fun _ => none, fun j => if j = 7 then 5 else 0,
          fun j => if j = 7 then 9 else 0, fun _ => 0, [], 10⟩
        ⟨true, 7, 3, 0, "a", some "b", none⟩ 7).serials 7 = some 3 ∧
      (update_cgroup_metadata
        ⟨fun _ => none, fun j => if j = 7 then 5 else 0,
          fun j => if j = 7 then 9 else 0, fun _ => 0, [], 10⟩
        ⟨true, 7, 3, 0, "a", some "b", none⟩ 7).throttledTime 7 = 0 ∧
      (update_cgroup_metadata
        ⟨fun _ => none, fun j => if j = 7 then 5 else 0,
          fun j => if j = 7 then 9 else 0, fun _ => 0, [], 10⟩
        ⟨true, 7, 3, 0, "a", some "b", none⟩ 7).throttledCount 7 = 0 ∧
      is_new_cgroup none 3 = false := by
  have h := C3_absent_entry_semantics
    ⟨fun _ => none, fun j => if j = 7 then 5 else 0,
      fun j => if j = 7 then 9 else 0, fun _ => 0, [], 10⟩
    ⟨true, 7, 3, 0, "a", some "b", none⟩ 7 3
    (by decide) (by decide) (by decide) (by decide) (by decide) (by decide)
  exact ⟨h.1, h.2.1, h.2.2.1, h.2.2.2.1, h.2.2.2.2⟩

/-- **C4**. Under sequential access, attributing the same `(id, version)`
twice emits the metadata record exactly once (the ring grows on the first
call only) and does not re-zero the per-cgroup counters on the second call
(the counter keeps accumulating: 1 then 2); attributing the same id with a
different version later emits metadata again and re-zeros the counters (back
to 1). Stated for the `tlb_flush` attributor with reason 0 (task_switch). -/
theorem C4_version_change_emission (s : TlbState) (cpu id v v1 e : Nat)
    (lvl : Int) (nm : String) (pn gn : Option String)
    (hid0 : id ≠ 0) (hid : id < MAX_CGROUPS)
    (he : s.serials id = some e) (hne : e ≠ v) (hv : v < U64)
    (hvv : v1 ≠ v) (hcap : s.ring.length + 1 < s.ringCap) :
    (tlb_flush s cpu 0 ⟨true, true, id, v, lvl, nm, pn, gn⟩).ring.length
        = s.ring.length + 1 ∧
      (tlb_flush s cpu 0 ⟨true, true, id, v, lvl, nm, pn, gn⟩).serials id
        = some v ∧
      (tlb_flush s cpu 0 ⟨true, true, id, v, lvl, nm, pn, gn⟩).taskSwitch id
        = 1 ∧
      (tlb_flush s cpu 0 ⟨true, true, id, v, lvl, nm, pn, gn⟩).remoteShootdown
        id = 0 ∧
      (tlb_flush (tlb_flush s cpu 0 ⟨true, true, id, v, lvl, nm, pn, gn⟩)
          cpu 0 ⟨true, true, id, v, lvl, nm, pn, gn⟩).ring
        = (tlb_flush s cpu 0 ⟨true, true, id, v, lvl, nm, pn, gn⟩).ring ∧
      (tlb_flush (tlb_flush s cpu 0 ⟨true, true, id, v, lvl, nm, pn, gn⟩)
          cpu 0 ⟨true, true, id, v, lvl, nm, pn, gn⟩).taskSwitch id = 2 ∧
      (tlb_flush (tlb_flush (tlb_flush s cpu 0
            ⟨true, true, id, v, lvl, nm, pn, gn⟩)
          cpu 0 ⟨true, true, id, v, lvl, nm, pn, gn⟩)
          cpu 0 ⟨true, true, id, v1, lvl, nm, pn, gn⟩).ring.length
        = s.ring.length + 2 ∧
      (tlb_flush (tlb_flush (tlb_flush s cpu 0
            ⟨true, true, id, v, lvl, nm, pn, gn⟩)
          cpu 0 ⟨true, true, id, v, lvl, nm, pn, gn⟩)
          cpu 0 ⟨true, true, id, v1, lvl, nm, pn, gn⟩).taskSwitch id = 1 := by
  have hroom : s.ring.length < s.ringCap := by omega
  have hnew1 : is_new_cgroup (s.serials id) v = true := by
    rw [he]
    simp [is_new_cgroup, hne]
  have h1ring := tlbNew_ring s cpu id v lvl nm pn gn hid0 hid hnew1 hroom
  have h1len : (tlb_flush s cpu 0
      ⟨true, true, id, v, lvl, nm, pn, gn⟩).ring.length = s.ring.length + 1 := by
    rw [h1ring]
    simp
  have h1ser : (tlb_flush s cpu 0
      ⟨true, true, id, v, lvl, nm, pn, gn⟩).serials id = some v := by
    rw [tlbNew_serials s cpu id v lvl nm pn gn hid0 hid hnew1,
      Nat.mod_eq_of_lt hv]
  have h1ts := tlbNew_taskSwitch s cpu id v lvl nm pn gn hid0 hid hnew1
  have h1rs := tlbNew_remoteShootdown s cpu id v lvl nm pn gn hid0 hid hnew1
  have h1cap := tlbNew_ringCap s cpu id v lvl nm pn gn hid0 hid hnew1
  have hnew2 : is_new_cgroup
      ((tlb_flush s cpu 0 ⟨true, true, id, v, lvl, nm, pn, gn⟩).serials id) v
        = false := by
    rw [h1ser]
    simp [is_new_cgroup]
  have h2ring := tlbOld_ring _ cpu id v lvl nm pn gn hid0 hid hnew2
  have h2ser := tlbOld_serials _ cpu id v lvl nm pn gn hid0 hid hnew2
  have h2ts : (tlb_flush (tlb_flush s cpu 0
        ⟨true, true, id, v, lvl, nm, pn, gn⟩) cpu 0
        ⟨true, true, id, v, lvl, nm, pn, gn⟩).taskSwitch id = 2 := by
    rw [tlbOld_taskSwitch _ cpu id v lvl nm pn gn hid0 hid hnew2, h1ts]
    decide
  have h2cap := tlbOld_ringCap _ cpu id v lvl nm pn gn hid0 hid hnew2
  have hnew3 : is_new_cgroup
      ((tlb_flush (tlb_flush s cpu 0 ⟨true, true, id, v, lvl, nm, pn, gn⟩)
        cpu 0 ⟨true, true, id, v, lvl, nm, pn, gn⟩).serials id) v1 = true := by
    rw [h2ser, h1ser]
    simp [is_new_cgroup]
    exact fun h => hvv h.symm
  have hroom3 : (tlb_flush (tlb_flush s cpu 0
        ⟨true, true, id, v, lvl, nm, pn, gn⟩) cpu 0
        ⟨true, true, id, v, lvl, nm, pn, gn⟩).ring.length
      < (tlb_flush (tlb_flush s cpu 0 ⟨true, true, id, v, lvl, nm, pn, gn⟩)
        cpu 0 ⟨true, true, id, v, lvl, nm, pn, gn⟩).ringCap := by
    rw [h2ring, h1len, h2cap, h1cap]
    omega
  have h3ring := tlbNew_ring _ cpu id v1 lvl nm pn gn hid0 hid hnew3 hroom3
  have h3ts := tlbNew_taskSwitch _ cpu id v1 lvl nm pn gn hid0 hid hnew3
  refine ⟨h1len, h1ser, h1ts, h1rs, h2ring, h2ts, ?_, h3ts⟩
  rw [h3ring]
  simp only [List.length_append, List.length_cons, List.length_nil]
  rw [h2ring, h1len]

/-- **C4** (witness): Scenario D — id 7 first seen with version 3 (record
emitted, counter zeroed then bumped to 1), again with version 3 (no record,
counter 2), then with version 4 (record again, counter re-zeroed to 1). -/
theorem C4_version_change_emission_witness :
    (tlb_flush ⟨fun _ => 0, fun _ => some 0, fun _ => 0, fun _ => 0,
        fun _ => 0, fun _ => 0, fun _ => 0, [], 10⟩ 0 0
      ⟨true, true, 7, 3, 0, "a", none, none⟩).ring.length = 1 ∧
      (tlb_flush (tlb_flush ⟨fun _ => 0, fun _ => some 0, fun _ => 0,
          fun _ => 0, fun _ => 0, fun _ => 0, fun _ => 0, [], 10⟩ 0 0
        ⟨true, true, 7, 3, 0, "a", none, none⟩) 0 0
        ⟨true, true, 7, 3, 0, "a", none, none⟩).taskSwitch 7 = 2 ∧
      (tlb_flush (tlb_flush (tlb_flush ⟨fun _ => 0, fun _ => some 0,
            fun _ => 0, fun _ => 0, fun _ => 0, fun _ => 0, fun _ => 0,
            [], 10⟩ 0 0
          ⟨true, true, 7, 3, 0, "a", none, none⟩) 0 0
          ⟨true, true, 7, 3, 0, "a", none, none⟩) 0 0
          ⟨true, true, 7, 4, 0, "a", none, none⟩).ring.length = 2 ∧
      (tlb_flush (tlb_flush (tlb_flush ⟨fun _ => 0, fun _ => some 0,
            fun _ => 0, fun _ => 0, fun _ => 0, fun _ => 0, fun _ => 0,
            [], 10⟩ 0 0
          ⟨true, true, 7, 3, 0, "a", none, none⟩) 0 0
          ⟨true, true, 7, 3, 0, "a", none, none⟩) 0 0
          ⟨true, true, 7, 4, 0, "a", none, none⟩).taskSwitch 7 = 1 := by
  have h := C4_version_change_emission
    ⟨fun _ => 0, fun _ => some 0, fun _ => 0, fun _ => 0, fun _ => 0,
      fun _ => 0, fun _ => 0, [], 10⟩ 0 7 3 4 0 0 "a" none none
    (by decide) (by decide) (by decide) (by decide) (by decide) (by decide)
    (by decide)
  exact ⟨h.1, h.2.2.2.2.2.1, h.2.2.2.2.2.2.1, h.2.2.2.2.2.2.2⟩

/-- **C9**. When the metadata ringbuf is full at the moment the attributor
detects a changed `(id, version)`, the record is dropped (the ring is
unchanged) but the per-cgroup counters are still zeroed (the counter restarts
at 1, an untouched one reads 0) and the version tag is still stored; a later
event for the same `(id, version)` therefore does not retry the record (the
ring stays unchanged and the counters keep accumulating). -/
theorem C9_full_channel_drop (s : TlbState) (cpu id v e : Nat) (lvl : Int)
    (nm : String) (pn gn : Option String)
    (hid0 : id ≠ 0) (hid : id < MAX_CGROUPS)
    (he : s.serials id = some e) (hne : e ≠ v) (hv : v < U64)
    (hfull : s.ringCap ≤ s.ring.length) :
    (tlb_flush s cpu 0 ⟨true, true, id, v, lvl, nm, pn, gn⟩).ring = s.ring ∧
      (tlb_flush s cpu 0 ⟨true, true, id, v, lvl, nm, pn, gn⟩).serials id
        = some v ∧
      (tlb_flush s cpu 0 ⟨true, true, id, v, lvl, nm, pn, gn⟩).taskSwitch id
        = 1 ∧
      (tlb_flush s cpu 0 ⟨true, true, id, v, lvl, nm, pn, gn⟩).remoteShootdown
        id = 0 ∧
      (tlb_flush (tlb_flush s cpu 0 ⟨true, true, id, v, lvl, nm, pn, gn⟩)
          cpu 0 ⟨true, true, id, v, lvl, nm, pn, gn⟩).ring = s.ring ∧
      (tlb_flush (tlb_flush s cpu 0 ⟨true, true, id, v, lvl, nm, pn, gn⟩)
          cpu 0 ⟨true, true, id, v, lvl, nm, pn, gn⟩).taskSwitch id = 2 ∧
      (tlb_flush (tlb_flush s cpu 0 ⟨true, true, id, v, lvl, nm, pn, gn⟩)
          cpu 0 ⟨true, true, id, v, lvl, nm, pn, gn⟩).serials id = some v := by
  have hnew1 : is_new_cgroup (s.serials id) v = true := by
    rw [he]
    simp [is_new_cgroup, hne]
  have h1ring := tlbNew_ring_full s cpu id v lvl nm pn gn hid0 hid hnew1 hfull
  have h1ser : (tlb_flush s cpu 0
      ⟨true, true, id, v, lvl, nm, pn, gn⟩).serials id = some v := by
    rw [tlbNew_serials s cpu id v lvl nm pn gn hid0 hid hnew1,
      Nat.mod_eq_of_lt hv]
  have h1ts := tlbNew_taskSwitch s cpu id v lvl nm pn gn hid0 hid hnew1
  have h1rs := tlbNew_remoteShootdown s cpu id v lvl nm pn gn hid0 hid hnew1
  have hnew2 : is_new_cgroup
      ((tlb_flush s cpu 0 ⟨true, true, id, v, lvl, nm, pn, gn⟩).serials id) v
        = false := by
    rw [h1ser]
    simp [is_new_cgroup]
  have h2ring := tlbOld_ring _ cpu id v lvl nm pn gn hid0 hid hnew2
  have h2ser := tlbOld_serials _ cpu id v lvl nm pn gn hid0 hid hnew2
  have h2ts : (tlb_flush (tlb_flush s cpu 0
        ⟨true, true, id, v, lvl, nm, pn, gn⟩) cpu 0
        ⟨true, true, id, v, lvl, nm, pn, gn⟩).taskSwitch id = 2 := by
    rw [tlbOld_taskSwitch _ cpu id v lvl nm pn gn hid0 hid hnew2, h1ts]
    decide
  refine ⟨h1ring, h1ser, h1ts, h1rs, ?_, h2ts, ?_⟩
  · rw [h2ring, h1ring]
  · rw [h2ser, h1ser]

/-- **C9** (witness): a zero-capacity ring — the record for (id 7, serial 3)
is dropped, yet the counter is rebased (1, then 2 on the repeat) and the
serial is stored. -/
theorem C9_full_channel_drop_witness :
    (tlb_flush ⟨fun _ => 0, fun _ => some 0, fun _ => 0, fun _ => 0,
        fun _ => 0, fun _ => 0, fun _ => 0, [], 0⟩ 0 0
      ⟨true, true, 7, 3, 0, "a", none, none⟩).ring = [] ∧
      (tlb_flush ⟨fun _ => 0, fun _ => some 0, fun _ => 0, fun _ => 0,
          fun _ => 0, fun _ => 0, fun _ => 0, [], 0⟩ 0 0
        ⟨true, true, 7, 3, 0, "a", none, none⟩).serials 7 = some 3 ∧
      (tlb_flush ⟨fun _ => 0, fun _ => some 0, fun _ => 0, fun _ => 0,
          fun _ => 0, fun _ => 0, fun _ => 0, [], 0⟩ 0 0
        ⟨true, true, 7, 3, 0, "a", none, none⟩).taskSwitch 7 = 1 ∧
      (tlb_flush (tlb_flush ⟨fun _ => 0, fun _ => some 0, fun _ => 0,
          fun _ => 0, fun _ => 0, fun _ => 0, fun _ => 0, [], 0⟩ 0 0
        ⟨true, true, 7, 3, 0, "a", none, none⟩) 0 0
        ⟨true, true, 7, 3, 0, "a", none, none⟩).ring = [] ∧
      (tlb_flush (tlb_flush ⟨fun _ => 0, fun _ => some 0, fun _ => 0,
          fun _ => 0, fun _ => 0, fun _ => 0, fun _ => 0, [], 0⟩ 0 0
        ⟨true, true, 7, 3, 0, "a", none, none⟩) 0 0
        ⟨true, true, 7, 3, 0, "a", none, none⟩).taskSwitch 7 = 2 := by
  have h := C9_full_channel_drop
    ⟨fun _ => 0, fun _ => some 0, fun _ => 0, fun _ => 0, fun _ => 0,
      fun _ => 0, fun _ => 0, [], 0⟩ 0 7 3 0 0 "a" none none
    (by decide) (by decide) (by decide) (by decide) (by decide) (by decide)
  exact ⟨h.1, h.2.1, h.2.2.1, h.2.2.2.2.1, h.2.2.2.2.2.1⟩

theorem log2_bounds {v p : Nat} (h : 2 ^ p ≤ v) :
    p ≤ Nat.log2 v ∧ 2 ^ Nat.log2 v ≤ v ∧ v < 2 ^ (Nat.log2 v + 1) := by
  have hv : v ≠ 0 := by
    have : 0 < 2 ^ p := pow_pos (by norm_num) p
    omega
  rw [Nat.log2_eq_log_two]
  exact ⟨(Nat.pow_le_iff_le_log one_lt_two hv).1 h, Nat.pow_log_le_self 2 hv,
    Nat.lt_pow_succ_log_self one_lt_two v⟩

theorem vti_else {v p : Nat} (h : 2 ^ p ≤ v) :
    value_to_index v p = (Nat.log2 v - p + 1) * 2 ^ p
      + (v - 2 ^ Nat.log2 v) / 2 ^ (Nat.log2 v - p) := by
  unfold value_to_index
  rw [if_neg (Nat.not_lt.2 h)]

theorem vti_offset_lt {v p : Nat} (h : 2 ^ p ≤ v) :
    (v - 2 ^ Nat.log2 v) / 2 ^ (Nat.log2 v - p) < 2 ^ p := by
  obtain ⟨hp, hle, hlt⟩ := log2_bounds h
  have hsub : v - 2 ^ Nat.log2 v < 2 ^ Nat.log2 v := by
    rw [pow_succ] at hlt
    omega
  rw [Nat.div_lt_iff_lt_mul (pow_pos (by norm_num) _)]
  calc v - 2 ^ Nat.log2 v < 2 ^ Nat.log2 v := hsub
    _ = 2 ^ p * 2 ^ (Nat.log2 v - p) := by
        rw [← pow_add]
        congr 1
        omega

theorem vti_lower {v p : Nat} (h : 2 ^ p ≤ v) :
    (Nat.log2 v - p + 1) * 2 ^ p ≤ value_to_index v p := by
  rw [vti_else h]
  exact Nat.le_add_right _ _

theorem vti_upper {v p : Nat} (h : 2 ^ p ≤ v) :
    value_to_index v p < (Nat.log2 v - p + 2) * 2 ^ p := by
  rw [vti_else h]
  have ho := vti_offset_lt h
  have hsplit : (Nat.log2 v - p + 2) * 2 ^ p
      = (Nat.log2 v - p + 1) * 2 ^ p + 2 ^ p := by ring
  omega

theorem vti_mono (p : Nat) {v1 v2 : Nat} (h : v1 ≤ v2) :
    value_to_index v1 p ≤ value_to_index v2 p := by
  by_cases h2 : v2 < 2 ^ p
  · have h1 : v1 < 2 ^ p := lt_of_le_of_lt h h2
    unfold value_to_index
    rw [if_pos h1, if_pos h2]
    exact h
  · have hp2 : 2 ^ p ≤ v2 := Nat.not_lt.1 h2
    by_cases h1 : v1 < 2 ^ p
    · have hlow := vti_lower hp2
      have h2p : 2 ^ p ≤ (Nat.log2 v2 - p + 1) * 2 ^ p :=
        Nat.le_mul_of_pos_left _ (by omega)
      have hlhs : value_to_index v1 p = v1 := by
        unfold value_to_index
        rw [if_pos h1]
      omega
    · have hp1 : 2 ^ p ≤ v1 := Nat.not_lt.1 h1
      have hl12 : Nat.log2 v1 ≤ Nat.log2 v2 := by
        rw [Nat.log2_eq_log_two, Nat.log2_eq_log_two]
        exact Nat.log_mono_right h
      rcases Nat.lt_or_ge (Nat.log2 v1) (Nat.log2 v2) with hlt | hge
      · have hup := vti_upper hp1
        have hlow := vti_lower hp2
        have hpl := (log2_bounds hp1).1
        have hcoef : (Nat.log2 v1 - p + 2) * 2 ^ p
            ≤ (Nat.log2 v2 - p + 1) * 2 ^ p :=
          Nat.mul_le_mul_right _ (by omega)
        omega
      · have heq : Nat.log2 v1 = Nat.log2 v2 := le_antisymm hl12 hge
        rw [vti_else hp1, vti_else hp2, heq]
        exact Nat.add_le_add_left
          (Nat.div_le_div_right (Nat.sub_le_sub_right h _)) _

theorem vti_zero (p : Nat) : value_to_index 0 p = 0 := by
  unfold value_to_index
  rw [if_pos (pow_pos (by norm_num) p)]

theorem vti_bound {v p : Nat} (hv : v < 2 ^ 64) (hp : p ≤ 64) :
    value_to_index v p < total_buckets p := by
  unfold total_buckets
  by_cases h : v < 2 ^ p
  · have hstep : 2 ^ p ≤ (64 - p + 1) * 2 ^ p :=
      Nat.le_mul_of_pos_left _ (by omega)
    have hlhs : value_to_index v p = v := by
      unfold value_to_index
      rw [if_pos h]
    omega
  · have hge : 2 ^ p ≤ v := Nat.not_lt.1 h
    have hvne : v ≠ 0 := by
      have : 0 < 2 ^ p := pow_pos (by norm_num) p
      omega
    have hlog : Nat.log2 v ≤ 63 := by
      rw [Nat.log2_eq_log_two]
      have := Nat.log_lt_of_lt_pow hvne hv
      omega
    have hpl := (log2_bounds hge).1
    have hup := vti_upper hge
    have hcoef : (Nat.log2 v - p + 2) * 2 ^ p ≤ (64 - p + 1) * 2 ^ p :=
      Nat.mul_le_mul_right _ (by omega)
    omega

/-- **C8** (spec-modelled `value_to_index`). The bucket-index function is
monotonically non-decreasing, maps 0 to bucket 0, and is bounded by the total
bucket count for every representable 64-bit value (for the meaningful
resolutions `power ≤ 64`). -/
theorem C8_monotone_bounded (p v1 v2 v : Nat) (h12 : v1 ≤ v2)
    (hv : v < 2 ^ 64) (hp : p ≤ 64) :
    value_to_index v1 p ≤ value_to_index v2 p ∧ value_to_index 0 p = 0 ∧
      value_to_index v p < total_buckets p :=
  ⟨vti_mono p h12, vti_zero p, vti_bound hv hp⟩

/-- **C8** (witness): concrete monotone pair and bound at power 3. -/
theorem C8_monotone_bounded_witness :
    value_to_index 5 3 ≤ value_to_index 900 3 ∧ value_to_index 0 3 = 0 ∧
      value_to_index 1000 3 < total_buckets 3 :=
  C8_monotone_bounded 3 5 900 1000 (by decide) (by decide) (by decide)

/-- **C10**. Counter updates are conserved: every `array_add` is a single
atomic fetch-and-add, so an interleaving of N concurrent increments of the
same in-capacity slot is a serialization of N whole `array_add` steps, and
every such serialization ends with the slot holding its initial value plus N
(stated below wrap-around, which the 64-bit counters do not reach). -/
theorem C10_conservation (cap idx : Nat) (arr : Nat → Nat)
    (ops : List (Nat × Nat)) (hops : ∀ op ∈ ops, op = (idx, 1))
    (hidx : idx < cap) (hb : arr idx + ops.length < U64) :
    run_adds cap ops arr idx = arr idx + ops.length := by
  induction ops generalizing arr with
  | nil => simp [run_adds]
  | cons op rest ih =>
    have hop : op = (idx, 1) := hops op (List.mem_cons_self op rest)
    subst hop
    have hlen : ((idx, 1) :: rest).length = rest.length + 1 := rfl
    have harr : array_add arr cap idx 1 idx = arr idx + 1 := by
      rw [array_add_self hidx]
      exact Nat.mod_eq_of_lt (by rw [hlen] at hb; omega)
    have hstep : run_adds cap ((idx, 1) :: rest) arr
        = run_adds cap rest (array_add arr cap idx 1) := rfl
    rw [hstep, ih (array_add arr cap idx 1)
      (fun op hmem => hops op (List.mem_cons_of_mem _ hmem))
      (by rw [harr]; rw [hlen] at hb; omega), harr, hlen]
    omega

/-- **C10** (witness): three serialized increments of slot 2 (capacity 16)
starting from 5 end at 8. -/
theorem C10_conservation_witness :
    run_adds 16 [(2, 1), (2, 1), (2, 1)] (fun _ => 5) 2
      = (fun _ => (5 : Nat)) 2 + ([(2, 1), (2, 1), (2, 1)] : List (Nat × Nat)).length :=
  C10_conservation 16 2 (fun _ => 5) [(2, 1), (2, 1), (2, 1)]
    (by decide) (by decide) (by decide)

end Rezolus

